import Mathlib

/-!
Shallow embedding of the tray host core of the clammy status bar:
the menu converter (`src/components/system_tray/menu.rs`), the icon
resolver and cache (`src/components/system_tray/icon.rs`), the tray
state store (`src/components/system_tray/tray.rs`) and the popup
lifecycle layer (`src/main.rs`), together with theorems checking the
specification's claims against these definitions.

Machine integers are modelled as `Int`/`Nat` (no arithmetic here comes
near overflow), `f32` animation scalars as `ℚ`, hash maps either as
functional maps (where no iteration order matters) or as association
lists (where the code iterates), and opaque image handles as a token
type.
-/

/-! ## Menu converter (`menu.rs`) -/

/-- `system_tray::menu::MenuType`, the variants the code inspects. -/
inductive MenuType where
  | Standard
  | Separator
deriving DecidableEq, Repr

/-- `system_tray::menu::ToggleState`. -/
inductive ToggleState where
  | On
  | Off
  | Indeterminate
deriving DecidableEq, Repr

/-- `system_tray::menu::ToggleType`. -/
inductive ToggleType where
  | Checkmark
  | Radio
  | CannotBeToggled
deriving DecidableEq, Repr

/-- `system_tray::menu::MenuItem` (the wire menu node), restricted to the
fields the converter reads. -/
inductive SniMenuItem where
  | mk (id : Int) (label : Option String) (enabled : Bool)
      (menu_type : MenuType) (toggle_state : ToggleState)
      (toggle_type : ToggleType) (submenu : List SniMenuItem)

/-- Numeric id of a wire menu node. -/
def SniMenuItem.id : SniMenuItem → Int
  | .mk i _ _ _ _ _ _ => i

/-- Label of a wire menu node. -/
def SniMenuItem.label : SniMenuItem → Option String
  | .mk _ l _ _ _ _ _ => l

/-- Enabled flag of a wire menu node. -/
def SniMenuItem.enabled : SniMenuItem → Bool
  | .mk _ _ e _ _ _ _ => e

/-- Menu type of a wire menu node. -/
def SniMenuItem.menu_type : SniMenuItem → MenuType
  | .mk _ _ _ t _ _ _ => t

/-- Toggle state of a wire menu node. -/
def SniMenuItem.toggle_state : SniMenuItem → ToggleState
  | .mk _ _ _ _ s _ _ => s

/-- Toggle type of a wire menu node. -/
def SniMenuItem.toggle_type : SniMenuItem → ToggleType
  | .mk _ _ _ _ _ t _ => t

/-- Children of a wire menu node. -/
def SniMenuItem.submenu : SniMenuItem → List SniMenuItem
  | .mk _ _ _ _ _ _ s => s

/-- `system_tray::menu::TrayMenu`: the root of a wire menu tree. -/
structure TrayMenu where
  submenus : List SniMenuItem

/-- `MenuItem` from `menu.rs`: the simplified render-side menu node. -/
inductive MenuItem where
  | mk (id : Int) (label : String) (enabled : Bool) (is_separator : Bool)
      (is_checkable : Bool) (is_checked : Bool) (submenu : List MenuItem)

/-- Numeric id of a converted menu node. -/
def MenuItem.id : MenuItem → Int
  | .mk i _ _ _ _ _ _ => i

/-- Label of a converted menu node. -/
def MenuItem.label : MenuItem → String
  | .mk _ l _ _ _ _ _ => l

/-- Enabled flag of a converted menu node. -/
def MenuItem.enabled : MenuItem → Bool
  | .mk _ _ e _ _ _ _ => e

/-- Separator flag of a converted menu node. -/
def MenuItem.is_separator : MenuItem → Bool
  | .mk _ _ _ s _ _ _ => s

/-- Checkable flag of a converted menu node. -/
def MenuItem.is_checkable : MenuItem → Bool
  | .mk _ _ _ _ c _ _ => c

/-- Checked flag of a converted menu node. -/
def MenuItem.is_checked : MenuItem → Bool
  | .mk _ _ _ _ _ c _ => c

/-- Children of a converted menu node. -/
def MenuItem.submenu : MenuItem → List MenuItem
  | .mk _ _ _ _ _ _ s => s

/-- Label cleaning from `convert_menu_item`:
`item.label.clone().unwrap_or_default().replace('_', "")`. -/
def clean_label (label : Option String) : String :=
  ((label.getD "").toList.filter (fun c => c ≠ '_')).asString

/-- `convert_menu_item` from `menu.rs`: convert one wire menu node,
recursing into its children with no depth bound. -/
def convert_menu_item : SniMenuItem → MenuItem
  | .mk i label e mt ts tt submenu =>
      .mk i (clean_label label) e
        (mt == MenuType.Separator)
        (!(tt == ToggleType.CannotBeToggled))
        (ts == ToggleState.On)
        (submenu.attach.map (fun c => convert_menu_item c.1))
decreasing_by
  simp_wf
  have h := List.sizeOf_lt_of_mem c.2
  omega

/-- `convert_menu` from `menu.rs`. -/
def convert_menu (menu : TrayMenu) : List MenuItem :=
  menu.submenus.map convert_menu_item

/-- Depth of a wire menu tree (a leaf has depth 1). -/
def sni_menu_depth : SniMenuItem → Nat
  | .mk _ _ _ _ _ _ submenu =>
      1 + (submenu.attach.map (fun c => sni_menu_depth c.1)).foldr max 0
decreasing_by
  simp_wf
  have h := List.sizeOf_lt_of_mem c.2
  omega

/-- Depth of a converted menu tree (a leaf has depth 1). -/
def menu_depth : MenuItem → Nat
  | .mk _ _ _ _ _ _ submenu =>
      1 + (submenu.attach.map (fun c => menu_depth c.1)).foldr max 0
decreasing_by
  simp_wf
  have h := List.sizeOf_lt_of_mem c.2
  omega

/-! ## Icon resolver (`icon.rs`) -/

/-- `ICON_SIZE` from `icon.rs`. -/
def ICON_SIZE : Int := 22

/-- `system_tray::item::IconPixmap`: width/height are `i32`, pixels a
byte vector. -/
structure IconPixmap where
  width : Int
  height : Int
  pixels : List Nat
deriving DecidableEq, Repr

/-- An RGBA image handle as produced by `image::Handle::from_rgba`:
dimensions plus the raw byte buffer. -/
structure RgbaImage where
  width : Int
  height : Int
  data : List Nat
deriving DecidableEq, Repr

/-- The body of `chunks_exact(4)` as used by `argb32_to_rgba`: each
complete `[a, r, g, b]` chunk is emitted as `[r, g, b, a]`; a trailing
incomplete chunk is dropped. -/
def argb_chunks_to_rgba : List Nat → List Nat
  | a :: r :: g :: b :: rest => r :: g :: b :: a :: argb_chunks_to_rgba rest
  | _ => []

/-- `argb32_to_rgba` from `icon.rs`: undersized buffers yield an
all-zero (transparent) buffer of the expected length. -/
def argb32_to_rgba (argb : List Nat) (width height : Nat) : List Nat :=
  let expected_len := width * height * 4
  if argb.length < expected_len then
    List.replicate expected_len 0
  else
    argb_chunks_to_rgba argb

/-- Rust `Iterator::min_by_key` restricted to what `pixmap_to_handle`
needs: the first element attaining the minimal key (a later element
replaces the current best only when its key is strictly smaller). -/
def min_by_key_first (key : IconPixmap → Nat) : List IconPixmap → Option IconPixmap
  | [] => none
  | x :: xs => some (xs.foldl (fun best y => if key y < key best then y else best) x)

/-- The filter in `pixmap_to_handle`: only pixmaps with positive width
and height are candidates. -/
def valid_pixmaps (pixmaps : List IconPixmap) : List IconPixmap :=
  pixmaps.filter (fun p => 0 < p.width && 0 < p.height)

/-- The selection key in `pixmap_to_handle`: `(p.width - ICON_SIZE).abs()`. -/
def pixmap_key (p : IconPixmap) : Nat :=
  (p.width - ICON_SIZE).natAbs

/-- `pixmap_to_handle` from `icon.rs`: pick the positive-dimension
pixmap whose width is closest to `ICON_SIZE`, then reject it (returning
`none` overall) when its pixel buffer is empty, else convert it. -/
def pixmap_to_handle (pixmaps : List IconPixmap) : Option RgbaImage :=
  match min_by_key_first pixmap_key (valid_pixmaps pixmaps) with
  | none => none
  | some pixmap =>
      if pixmap.pixels.isEmpty then none
      else
        some ⟨pixmap.width, pixmap.height,
          argb32_to_rgba pixmap.pixels pixmap.width.toNat pixmap.height.toNat⟩

/-! ## Icon theme lookup and cache (`icon.rs`) -/

/-- The ordered list of candidate paths probed by `find_icon_in_path`:
size-specific directories, then the bare name, then the hicolor layout,
with extensions `{png, svg, xpm}` and sizes `{ICON_SIZE, 24, 32, 48, 22,
16}`. -/
def icon_candidates (theme_path icon_name : String) : List String :=
  let exts := ["png", "svg", "xpm"]
  let sizes : List Nat := [22, 24, 32, 48, 22, 16]
  (sizes.flatMap (fun size => exts.map (fun ext =>
      theme_path ++ "/" ++ toString size ++ "x" ++ toString size ++ "/"
        ++ icon_name ++ "." ++ ext)))
    ++ (exts.map (fun ext => theme_path ++ "/" ++ icon_name ++ "." ++ ext))
    ++ (sizes.flatMap (fun size => exts.map (fun ext =>
      theme_path ++ "/hicolor/" ++ toString size ++ "x" ++ toString size
        ++ "/apps/" ++ icon_name ++ "." ++ ext)))

/-- `find_icon_in_path` from `icon.rs`, with the filesystem abstracted
as the set of existing paths (`fs p = true` iff `p.exists()`): return
the first candidate path that exists. -/
def find_icon_in_path (fs : String → Bool) (theme_path icon_name : String) :
    Option String :=
  (icon_candidates theme_path icon_name).find? fs

/-- `ICON_CACHE` contents: `None` before lazy initialization, otherwise
a map from `(theme_path, icon_name)` to the recorded lookup outcome
(`some none` is a recorded negative outcome). -/
def IconCache : Type := Option ((String × String) → Option (Option String))

/-- `get_or_init_cache` from `icon.rs`: initialize the map to empty on
first touch. -/
def get_or_init_cache (c : IconCache) : (String × String) → Option (Option String) :=
  c.getD (fun _ => none)

/-- `find_icon_in_path_cached` from `icon.rs`, in state-passing form:
consult the cache; on a miss perform the filesystem lookup and record
its outcome (hit or explicit miss) before returning. -/
def find_icon_in_path_cached (fs : String → Bool) (c : IconCache)
    (theme_path icon_name : String) : Option String × IconCache :=
  let m := get_or_init_cache c
  let key := (theme_path, icon_name)
  match m key with
  | some cached => (cached, some m)
  | none =>
      let result := find_icon_in_path fs theme_path icon_name
      (result, some (fun k => if k = key then some result else m k))

/-- `lookup_freedesktop_icon` from `icon.rs`: deliberately a stub. -/
def lookup_freedesktop_icon (_name : String) : Option String :=
  none

/-! ## Tray state store (`tray.rs`) -/

/-- An opaque `iced::widget::image::Handle` token (the store never
inspects handles, it only moves them around). -/
structure IconHandle where
  tok : Nat
deriving DecidableEq, Repr

/-- `TrayItemState` from `tray.rs`. -/
structure TrayItemState where
  address : String
  title : Option String
  icon_handle : Option IconHandle
  menu_items : List MenuItem
  item_is_menu : Bool

/-- `CustomIndicator` from `tray.rs`. -/
structure CustomIndicator where
  id : String
  icon : IconHandle
  tooltip : String

/-- `ActivateRequest` from the `system_tray` client crate, as built by
the store. -/
inductive ActivateRequest where
  | Default (address : String) (x y : Int)
  | MenuItem (address : String) (menu_path : String) (submenu_id : Int)
deriving DecidableEq, Repr

/-- `SystemTray` from `tray.rs`. `items` is a `HashMap` modelled as a
functional map (no store operation depends on its iteration order);
`activate_tx` records whether the activation channel has been
installed, and `update` returns the requests sent over it. -/
structure SystemTray where
  items : String → Option TrayItemState
  custom_indicators : List CustomIndicator
  open_menu : Option String
  activate_tx : Bool

/-- `SystemTray::default()`. -/
def SystemTray.default : SystemTray :=
  { items := fun _ => none
    custom_indicators := []
    open_menu := none
    activate_tx := false }

/-- `Message` from `tray.rs` (named `TrayMessage` here to avoid
clashing with the `main.rs` message type). `ActivateChannelReady`
carries no payload: the model only tracks that a sender is installed. -/
inductive TrayMessage where
  | ItemAdded (address : String) (title : Option String)
      (icon_handle : Option IconHandle) (item_is_menu : Bool)
  | ItemUpdated (address : String) (title : Option String)
      (icon_handle : Option IconHandle)
  | MenuUpdated (address : String) (menu_items : List MenuItem)
  | ItemRemoved (address : String)
  | ItemClicked (address : String)
  | ItemRightClicked (address : String)
  | MenuItemClicked (address : String) (menu_id : Int)
  | CloseMenu
  | ActivationComplete
  | ActivateChannelReady

/-- `HashMap::insert` on a functional map. -/
def map_insert (m : String → Option TrayItemState) (k : String)
    (v : TrayItemState) : String → Option TrayItemState :=
  fun k' => if k' = k then some v else m k'

/-- `HashMap::remove` on a functional map. -/
def map_remove (m : String → Option TrayItemState) (k : String) :
    String → Option TrayItemState :=
  fun k' => if k' = k then none else m k'

/-- `SystemTray::get_menu_items`. -/
def SystemTray.get_menu_items (s : SystemTray) (address : String) :
    Option (List MenuItem) :=
  (s.items address).map (fun item => item.menu_items)

/-- `SystemTray::has_menu`: non-empty menu or the menu-only flag. -/
def SystemTray.has_menu (s : SystemTray) (address : String) : Bool :=
  ((s.items address).map
    (fun item => !item.menu_items.isEmpty || item.item_is_menu)).getD false

/-- `SystemTray::add_custom_indicator`. -/
def SystemTray.add_custom_indicator (s : SystemTray)
    (indicator : CustomIndicator) : SystemTray :=
  { s with custom_indicators := s.custom_indicators ++ [indicator] }

/-- `SystemTray::remove_custom_indicator`. -/
def SystemTray.remove_custom_indicator (s : SystemTray) (id : String) :
    SystemTray :=
  { s with custom_indicators := s.custom_indicators.filter (fun i => i.id ≠ id) }

/-- `SystemTray::update` from `tray.rs`. The returned list holds the
`ActivateRequest`s the produced `Task` sends over the activation
channel (empty when the channel is not yet installed, mirroring the
`else Task::none()` branches). -/
def SystemTray.update (s : SystemTray) (message : TrayMessage) :
    SystemTray × List ActivateRequest :=
  match message with
  | .ActivateChannelReady => ({ s with activate_tx := true }, [])
  | .ItemAdded address title icon_handle item_is_menu =>
      let entry : TrayItemState :=
        { address := address, title := title, icon_handle := icon_handle,
          menu_items := [], item_is_menu := item_is_menu }
      ({ s with items := map_insert s.items address entry }, [])
  | .ItemUpdated address title icon_handle =>
      match s.items address with
      | some item =>
          let entry : TrayItemState :=
            { item with
              title := if title.isSome then title else item.title
              icon_handle :=
                if icon_handle.isSome then icon_handle else item.icon_handle }
          ({ s with items := map_insert s.items address entry }, [])
      | none => (s, [])
  | .MenuUpdated address menu_items =>
      match s.items address with
      | some item =>
          let entry : TrayItemState := { item with menu_items := menu_items }
          ({ s with items := map_insert s.items address entry }, [])
      | none => (s, [])
  | .ItemRemoved address =>
      ({ s with
          items := map_remove s.items address
          open_menu := if s.open_menu = some address then none else s.open_menu },
        [])
  | .ItemClicked address =>
      if s.activate_tx then (s, [.Default address 0 0]) else (s, [])
  | .ItemRightClicked address =>
      if s.open_menu = some address then
        ({ s with open_menu := none }, [])
      else
        ({ s with open_menu := some address }, [])
  | .MenuItemClicked address menu_id =>
      if s.activate_tx then
        ({ s with open_menu := none }, [.MenuItem address "/MenuBar" menu_id])
      else
        ({ s with open_menu := none }, [])
  | .CloseMenu => ({ s with open_menu := none }, [])
  | .ActivationComplete => (s, [])

/-! ## Popup lifecycle layer (`main.rs`) -/

/-- `WindowType` from `main.rs`. -/
inductive WindowType where
  | Main
  | TrayMenu
deriving DecidableEq, Repr

/-- `PopupAnimationState` from `main.rs`; the `f32` scalars are
modelled as rationals. -/
structure PopupAnimationState where
  progress : ℚ
  content_height : ℚ
deriving DecidableEq, Repr

/-- Association-list lookup, mirroring `HashMap::get`. -/
def alist_get {α : Type} (m : List (Nat × α)) (k : Nat) : Option α :=
  (m.find? (fun p => p.1 == k)).map (fun p => p.2)

/-- Association-list insert, mirroring `HashMap::insert` while keeping
an explicit iteration order (new keys iterate last). -/
def alist_insert {α : Type} (m : List (Nat × α)) (k : Nat) (v : α) :
    List (Nat × α) :=
  if (m.find? (fun p => p.1 == k)).isSome then
    m.map (fun p => if p.1 == k then (k, v) else p)
  else
    m ++ [(k, v)]

/-- Association-list removal, mirroring `HashMap::remove`. -/
def alist_remove {α : Type} (m : List (Nat × α)) (k : Nat) : List (Nat × α) :=
  m.filter (fun p => p.1 ≠ k)

/-- The popup part of `StatusBar` from `main.rs`: the tray store plus
the window/popup bookkeeping maps. The `HashMap`s the code iterates
over are association lists (list order standing for the map's
iteration order); `next_id` models `Id::unique()`. The metric widgets
and config are out of scope and omitted. -/
structure StatusBar where
  system_tray : SystemTray
  windows : List (Nat × WindowType)
  menu_data : List (Nat × (String × List MenuItem))
  popup_animations : List (Nat × PopupAnimationState)
  next_id : Nat

/-- `Message` from `main.rs` (named `BarMessage` here), restricted to
the variants the tray/popup flow uses. `EscPressed` is the
`IcedEvent(KeyPressed(Escape))` case; `NewMenu`/`RemoveWindow` are the
layer-shell messages the handlers emit. -/
inductive BarMessage where
  | SystemTray (tray_msg : TrayMessage)
  | OpenTrayMenu (address : String) (items : List MenuItem)
  | ClosePopup (id : Nat)
  | PopupMenuItemClicked (popup_id : Nat) (address : String) (menu_id : Int)
  | EscPressed
  | PopupAnimationTick
  | NewMenu (width : Nat) (height : Nat) (id : Nat)
  | RemoveWindow (id : Nat)

/-- `StatusBar::remove_id` from `main.rs`. -/
def StatusBar.remove_id (sb : StatusBar) (id : Nat) : StatusBar :=
  match alist_get sb.windows id with
  | some window_type =>
      let sb' := { sb with windows := alist_remove sb.windows id }
      if window_type == WindowType.TrayMenu then
        { sb' with
            menu_data := alist_remove sb'.menu_data id
            popup_animations := alist_remove sb'.popup_animations id }
      else sb'
  | none => sb

/-- The `PopupAnimationTick` body from `main.rs`: advance the FIRST
popup in iteration order whose progress is below `1.0` by `0.15`,
clamped to `1.0`; later animating popups are left untouched. -/
def advance_first :
    List (Nat × PopupAnimationState) → List (Nat × PopupAnimationState)
  | [] => []
  | (i, a) :: rest =>
      if a.progress < 1 then
        (i, { a with progress := min (a.progress + 0.15) 1 }) :: rest
      else
        (i, a) :: advance_first rest

/-- The Escape handler's search in `main.rs`: the first `TrayMenu`
window in iteration order. -/
def find_tray_menu_window (ws : List (Nat × WindowType)) : Option Nat :=
  (ws.find? (fun p => p.2 == WindowType.TrayMenu)).map (fun p => p.1)

/-- `StatusBar::update` from `main.rs`, restricted to the tray/popup
messages. Returns the new state, the follow-up messages produced via
`Task::done` (in order), and the activation requests sent by the
delegated tray store update. -/
def StatusBar.update (sb : StatusBar) (message : BarMessage) :
    StatusBar × List BarMessage × List ActivateRequest :=
  match message with
  | .SystemTray tray_msg =>
      let tr := SystemTray.update sb.system_tray tray_msg
      let forward : StatusBar × List BarMessage × List ActivateRequest :=
        ({ sb with system_tray := tr.1 }, [], tr.2)
      match tray_msg with
      | .ItemClicked address =>
          match SystemTray.get_menu_items sb.system_tray address with
          | some items =>
              if !items.isEmpty then
                (sb, [.OpenTrayMenu address items], [])
              else forward
          | none => forward
      | _ => forward
  | .OpenTrayMenu address items =>
      let id := sb.next_id
      let item_count := items.length
      let menu_height := item_count * 28 + 16
      let height := menu_height + 22
      let content_height : ℚ := (menu_height : ℚ)
      ({ sb with
          menu_data := alist_insert sb.menu_data id (address, items)
          windows := alist_insert sb.windows id WindowType.TrayMenu
          popup_animations := alist_insert sb.popup_animations id
            { progress := 0, content_height := content_height }
          next_id := sb.next_id + 1 },
        [.NewMenu 200 (min height 400) id], [])
  | .ClosePopup id =>
      (sb.remove_id id, [.RemoveWindow id], [])
  | .PopupMenuItemClicked popup_id address menu_id =>
      let tr := SystemTray.update sb.system_tray (.MenuItemClicked address menu_id)
      ({ sb with system_tray := tr.1 }, [.ClosePopup popup_id], tr.2)
  | .EscPressed =>
      match find_tray_menu_window sb.windows with
      | some id => (sb, [.ClosePopup id], [])
      | none => (sb, [], [])
  | .PopupAnimationTick =>
      ({ sb with popup_animations := advance_first sb.popup_animations }, [], [])
  | .NewMenu _ _ _ => (sb, [], [])
  | .RemoveWindow _ => (sb, [], [])

/-- The height computation of `StatusBar::view_tray_menu`: the eased
progress `1 - (1 - p)^2` is computed from the stored progress at render
time, multiplied by the content height and floored at `1.0`; a missing
animation entry defaults to `(1.0, 100.0)`. -/
def StatusBar.view_tray_menu_visible_height (sb : StatusBar) (popup_id : Nat) : ℚ :=
  let pc : ℚ × ℚ :=
    match alist_get sb.popup_animations popup_id with
    | some anim => (1 - (1 - anim.progress) ^ 2, anim.content_height)
    | none => (1, 100)
  max (pc.2 * pc.1) 1

/-! ## The initial-snapshot phase of `run_tray_client` (`tray.rs`) -/

/-- One entry of the protocol client's item map, as read during the
initial snapshot. -/
structure SnapshotEntry where
  address : String
  title : Option String
  item_is_menu : Bool
  menu : Option TrayMenu

/-- Abstract actions of the snapshot phase, in program order. -/
inductive SnapshotAction where
  | acquire
  | copy_out (address : String)
  | resolve (address : String)
  | release
  | emit_added (address : String)
  | emit_menu (address : String)
deriving DecidableEq, Repr

/-- The action trace of the snapshot block of `run_tray_client`: the
item lock is taken, each entry is copied out AND has `resolve_icon`
run on it inside the `map` closure, the guard is dropped, and only
then are the `ItemAdded`/`MenuUpdated` events emitted per entry. -/
def snapshot_trace (items : List SnapshotEntry) : List SnapshotAction :=
  [SnapshotAction.acquire]
    ++ items.flatMap
        (fun it => [SnapshotAction.copy_out it.address,
                    SnapshotAction.resolve it.address])
    ++ [SnapshotAction.release]
    ++ items.flatMap
        (fun it =>
          [SnapshotAction.emit_added it.address]
            ++ (if it.menu.isSome then [SnapshotAction.emit_menu it.address]
                else []))

/-- Does a `resolve` action occur while the lock is held? The Boolean
argument is the lock state entering the trace. -/
def resolve_while_locked : List SnapshotAction → Bool → Bool
  | [], _ => false
  | .acquire :: rest, _ => resolve_while_locked rest true
  | .release :: rest, _ => resolve_while_locked rest false
  | .resolve _ :: rest, locked => locked || resolve_while_locked rest locked
  | .copy_out _ :: rest, locked => resolve_while_locked rest locked
  | .emit_added _ :: rest, locked => resolve_while_locked rest locked
  | .emit_menu _ :: rest, locked => resolve_while_locked rest locked

/-- Does an emit action occur while the lock is held? -/
def emit_while_locked : List SnapshotAction → Bool → Bool
  | [], _ => false
  | .acquire :: rest, _ => emit_while_locked rest true
  | .release :: rest, _ => emit_while_locked rest false
  | .emit_added _ :: rest, locked => locked || emit_while_locked rest locked
  | .emit_menu _ :: rest, locked => locked || emit_while_locked rest locked
  | .resolve _ :: rest, locked => emit_while_locked rest locked
  | .copy_out _ :: rest, locked => emit_while_locked rest locked

/-! ## Auxiliary definitions used by the claim theorems -/

/-- Flatten a list of `(a, r, g, b)` pixels into the wire ARGB byte
order `[A, R, G, B]`. -/
def pixels_as_argb : List (Nat × Nat × Nat × Nat) → List Nat
  | [] => []
  | (a, r, g, b) :: rest => a :: r :: g :: b :: pixels_as_argb rest

/-- Flatten a list of `(a, r, g, b)` pixels into the renderer's RGBA
byte order `[R, G, B, A]`. -/
def pixels_as_rgba : List (Nat × Nat × Nat × Nat) → List Nat
  | [] => []
  | (a, r, g, b) :: rest => r :: g :: b :: a :: pixels_as_rgba rest

/-- `x` is the first-encountered minimum of `l` under `key`: `l` splits
as `l1 ++ x :: l2` where every earlier element has a strictly larger
key and every later element has a key at least as large. -/
def IsFirstMin (key : IconPixmap → Nat) (l : List IconPixmap) (x : IconPixmap) :
    Prop :=
  ∃ l1 l2, l = l1 ++ x :: l2 ∧ (∀ y ∈ l1, key x < key y) ∧
    (∀ y ∈ l2, key x ≤ key y)

/-- A wire menu chain of the given nesting depth below the root node:
`sni_chain n` has depth `n + 1`. -/
def sni_chain : Nat → SniMenuItem
  | 0 => .mk 0 none true .Standard .Off .CannotBeToggled []
  | n + 1 => .mk 0 none true .Standard .Off .CannotBeToggled [sni_chain n]

/-- One foreground animation tick: the state after
`StatusBar::update(PopupAnimationTick)`. -/
def StatusBar.tick (sb : StatusBar) : StatusBar :=
  (StatusBar.update sb .PopupAnimationTick).1

/-- Lock state after executing a trace, starting from the given state. -/
def lock_state_after : List SnapshotAction → Bool → Bool
  | [], b => b
  | .acquire :: rest, _ => lock_state_after rest true
  | .release :: rest, _ => lock_state_after rest false
  | .copy_out _ :: rest, b => lock_state_after rest b
  | .resolve _ :: rest, b => lock_state_after rest b
  | .emit_added _ :: rest, b => lock_state_after rest b
  | .emit_menu _ :: rest, b => lock_state_after rest b

/-- A concrete converted menu row (an enabled "Quit" entry). -/
def demo_menu_item : MenuItem := .mk 1 "Quit" true false false false []

/-- A concrete bar state: one tray item `"steam"` with a one-row menu,
an open popup window (id 7) for it, and the activation channel
installed. -/
def removal_demo_state : StatusBar :=
  { system_tray :=
      { items := map_insert (fun _ => none) "steam"
          { address := "steam", title := some "Steam", icon_handle := none,
            menu_items := [demo_menu_item], item_is_menu := false }
        custom_indicators := []
        open_menu := none
        activate_tx := true }
    windows := [(7, WindowType.TrayMenu)]
    menu_data := [(7, ("steam", [demo_menu_item]))]
    popup_animations := [(7, ⟨1, 44⟩)]
    next_id := 8 }

/-- A concrete bar state: one menu-only tray item `"discord"` with an
EMPTY menu list, activation channel installed, no windows. -/
def menu_only_state : StatusBar :=
  { system_tray :=
      { items := map_insert (fun _ => none) "discord"
          { address := "discord", title := none, icon_handle := none,
            menu_items := [], item_is_menu := true }
        custom_indicators := []
        open_menu := none
        activate_tx := true }
    windows := []
    menu_data := []
    popup_animations := []
    next_id := 0 }

/-- A concrete bar state before the activation channel is installed. -/
def no_channel_state : StatusBar :=
  { system_tray := SystemTray.default
    windows := []
    menu_data := []
    popup_animations := []
    next_id := 0 }

/-- A concrete bar state with TWO popups whose animations are both
still in progress. -/
def two_popup_state : StatusBar :=
  { system_tray := SystemTray.default
    windows := [(1, WindowType.TrayMenu), (2, WindowType.TrayMenu)]
    menu_data := [(1, ("steam", [demo_menu_item])), (2, ("discord", [demo_menu_item]))]
    popup_animations := [(1, ⟨0, 44⟩), (2, ⟨0, 44⟩)]
    next_id := 3 }

/-- A concrete store holding one item `"X"` titled `"A"`. -/
def merge_demo_store : SystemTray :=
  { items := map_insert (fun _ => none) "X"
      { address := "X", title := some "A", icon_handle := some ⟨5⟩,
        menu_items := [], item_is_menu := false }
    custom_indicators := []
    open_menu := none
    activate_tx := false }

/-- A concrete bar state with a single popup whose animation is at
progress `0`. -/
def single_popup_state : StatusBar :=
  { system_tray := SystemTray.default
    windows := [(9, WindowType.TrayMenu)]
    menu_data := [(9, ("steam", [demo_menu_item]))]
    popup_animations := [(9, ⟨0, 28⟩)]
    next_id := 10 }

/-- The specification's pixmap-selection example: widths 16, 20, 24
and 48 against target 22 (the widths 20 and 24 tie at distance 2). -/
def demo_pixmaps : List IconPixmap :=
  [⟨16, 16, [1, 2, 3, 4]⟩, ⟨20, 20, [1, 2, 3, 4]⟩,
   ⟨24, 24, [1, 2, 3, 4]⟩, ⟨48, 48, [1, 2, 3, 4]⟩]

/-! ## Helper lemmas -/

/-- Chunk-wise ARGB→RGBA reordering on a whole pixel list. -/
theorem argb_chunks_to_rgba_pixels (px : List (Nat × Nat × Nat × Nat)) :
    argb_chunks_to_rgba (pixels_as_argb px) = pixels_as_rgba px := by
  induction px with
  | nil => rfl
  | cons p rest ih =>
      obtain ⟨a, r, g, b⟩ := p
      simp [pixels_as_argb, pixels_as_rgba, argb_chunks_to_rgba, ih]

/-- Length of a flattened ARGB pixel list. -/
theorem pixels_as_argb_length (px : List (Nat × Nat × Nat × Nat)) :
    (pixels_as_argb px).length = 4 * px.length := by
  induction px with
  | nil => rfl
  | cons p rest ih =>
      obtain ⟨a, r, g, b⟩ := p
      simp [pixels_as_argb, ih]
      omega

/-! ## Claim theorems -/

/-- C6: applying `ItemUpdated` with an absent (`none`) title keeps the
stored title, an absent icon keeps the stored icon (a present field
overwrites), the entry's remaining fields and every other address are
untouched, the rest of the store is unchanged, and no activation
request is emitted. -/
theorem C6_partial_update_is_merge (s : SystemTray) (address : String)
    (title : Option String) (icon_handle : Option IconHandle) :
    (∀ item, s.items address = some item →
        (SystemTray.update s (.ItemUpdated address title icon_handle)).1.items address =
          some { item with
                 title := if title.isSome then title else item.title
                 icon_handle :=
                   if icon_handle.isSome then icon_handle else item.icon_handle }) ∧
    (∀ b, b ≠ address →
        (SystemTray.update s (.ItemUpdated address title icon_handle)).1.items b =
          s.items b) ∧
    (SystemTray.update s (.ItemUpdated address title icon_handle)).1.open_menu =
      s.open_menu ∧
    (SystemTray.update s (.ItemUpdated address title icon_handle)).1.custom_indicators =
      s.custom_indicators ∧
    (SystemTray.update s (.ItemUpdated address title icon_handle)).2 = [] := by
  refine ⟨?_, ?_, ?_, ?_, ?_⟩
  · intro item hitem
    simp [SystemTray.update, hitem, map_insert]
  · intro b hb
    cases h : s.items address <;> simp [SystemTray.update, h, map_insert, hb]
  · cases h : s.items address <;> simp [SystemTray.update, h]
  · cases h : s.items address <;> simp [SystemTray.update, h]
  · cases h : s.items address <;> simp [SystemTray.update, h]

/-- C6 witness: updating item `"X"` (titled `"A"`) with absent title
and absent icon leaves the entry exactly as it was. -/
theorem C6_partial_update_is_merge_witness :
    (SystemTray.update merge_demo_store (.ItemUpdated "X" none none)).1.items "X" =
      some { address := "X", title := some "A", icon_handle := some ⟨5⟩,
             menu_items := [], item_is_menu := false } := by
  have h := (C6_partial_update_is_merge merge_demo_store "X" none none).1
    { address := "X", title := some "A", icon_handle := some ⟨5⟩,
      menu_items := [], item_is_menu := false } (by rfl)
  simpa using h

/-- C7: `argb32_to_rgba` is total; a buffer shorter than
`width*height*4` yields an all-zero buffer of exactly that length, and
a buffer of exactly that length has each `[A,R,G,B]` pixel reordered
to `[R,G,B,A]`. -/
theorem C7_argb32_to_rgba_reorders (width height : Nat) :
    (∀ argb, argb.length < width * height * 4 →
        argb32_to_rgba argb width height = List.replicate (width * height * 4) 0) ∧
    (∀ px : List (Nat × Nat × Nat × Nat),
        (pixels_as_argb px).length = width * height * 4 →
        argb32_to_rgba (pixels_as_argb px) width height = pixels_as_rgba px) := by
  constructor
  · intro argb h
    simp [argb32_to_rgba, h]
  · intro px h
    have hn : ¬ (pixels_as_argb px).length < width * height * 4 := by omega
    simp [argb32_to_rgba, hn, argb_chunks_to_rgba_pixels]

/-- C7 witness: the 1×1 pixel `[0xFF, 0x10, 0x20, 0x30]` maps to
`[0x10, 0x20, 0x30, 0xFF]`, and a 2×2 image with only 4 bytes yields
16 zero bytes. -/
theorem C7_argb32_to_rgba_reorders_witness :
    argb32_to_rgba [255, 16, 32, 48] 1 1 = [16, 32, 48, 255] ∧
    argb32_to_rgba [0, 0, 0, 0] 2 2 = List.replicate 16 0 := by
  constructor
  · have h := (C7_argb32_to_rgba_reorders 1 1).2 [(255, 16, 32, 48)] (by decide)
    simpa [pixels_as_argb, pixels_as_rgba] using h
  · exact (C7_argb32_to_rgba_reorders 2 2).1 [0, 0, 0, 0] (by decide)

/-- C8: once a cached lookup for a `(theme_path, icon_name)` pair has
completed, a second lookup with the identical pair returns exactly the
recorded outcome and leaves the cache unchanged, for EVERY filesystem
state at the time of the second call (no existence check can influence
it). -/
theorem C8_second_lookup_cached (fs1 fs2 : String → Bool) (c : IconCache)
    (theme_path icon_name : String) :
    find_icon_in_path_cached fs2
        (find_icon_in_path_cached fs1 c theme_path icon_name).2 theme_path icon_name =
      ((find_icon_in_path_cached fs1 c theme_path icon_name).1,
       (find_icon_in_path_cached fs1 c theme_path icon_name).2) := by
  simp only [find_icon_in_path_cached, get_or_init_cache]
  cases h : c.getD (fun _ => none) (theme_path, icon_name) with
  | none => simp [h]
  | some cached => simp [h]

/-- C10: `ItemAdded` installs (or overwrites to) an entry with an empty
menu list, so `get_menu_items` returns `some []`, `has_menu` collapses
to the menu-only flag alone, and a subsequent `MenuUpdated` installs a
menu again. -/
theorem C10_item_added_resets_menu (s : SystemTray) (address : String)
    (title : Option String) (icon_handle : Option IconHandle)
    (item_is_menu : Bool) (menu_items : List MenuItem) :
    SystemTray.get_menu_items
        (SystemTray.update s (.ItemAdded address title icon_handle item_is_menu)).1
        address = some [] ∧
    SystemTray.has_menu
        (SystemTray.update s (.ItemAdded address title icon_handle item_is_menu)).1
        address = item_is_menu ∧
    SystemTray.get_menu_items
        ((SystemTray.update
            (SystemTray.update s (.ItemAdded address title icon_handle item_is_menu)).1
            (.MenuUpdated address menu_items)).1) address = some menu_items := by
  simp [SystemTray.update, SystemTray.get_menu_items, SystemTray.has_menu, map_insert]

/-- The menu converter preserves tree depth exactly. -/
theorem menu_depth_convert_eq (item : SniMenuItem) :
    menu_depth (convert_menu_item item) = sni_menu_depth item := by
  induction item using convert_menu_item.induct with
  | _ i label e mt ts tt submenu ih =>
      rw [convert_menu_item, menu_depth, sni_menu_depth]
      congr 1
      simp only [List.map_attach, List.attach_map_coe, List.pmap_eq_map, List.map_map]
      refine congrArg (List.foldr max 0) ?_
      apply List.map_congr_left
      exact fun a ha => ih ⟨a, ha⟩

/-- Depth of the demonstration chain. -/
theorem sni_chain_depth (n : Nat) : sni_menu_depth (sni_chain n) = n + 1 := by
  induction n with
  | zero => simp [sni_chain, sni_menu_depth]
  | succ n ih =>
      rw [sni_chain, sni_menu_depth]
      simp [List.pmap_eq_map, ih]
      omega

/-- C5 (amended): menu conversion applies no recursion cap at all — the
converted tree's depth always equals the wire tree's depth, however
deep the wire tree is. -/
theorem C5_convert_preserves_depth (item : SniMenuItem) :
    menu_depth (convert_menu_item item) = sni_menu_depth item :=
  menu_depth_convert_eq item

/-- C5 counterexample: a wire chain nested to depth 65 converts to a
tree of depth 65 — deeper than the claimed 64-level cap, so nothing is
truncated. -/
theorem C5_no_truncation_at_64 :
    menu_depth (convert_menu_item (sni_chain 64)) = 65 ∧ ¬(65 ≤ 64) := by
  constructor
  · rw [menu_depth_convert_eq, sni_chain_depth]
  · omega

/-- `resolve_while_locked` distributes over trace concatenation. -/
theorem resolve_while_locked_append (l1 l2 : List SnapshotAction) (b : Bool) :
    resolve_while_locked (l1 ++ l2) b =
      (resolve_while_locked l1 b || resolve_while_locked l2 (lock_state_after l1 b)) := by
  induction l1 generalizing b with
  | nil => simp [resolve_while_locked, lock_state_after]
  | cons a rest ih =>
      cases a <;> simp [resolve_while_locked, lock_state_after, ih, Bool.or_assoc]

/-- `emit_while_locked` distributes over trace concatenation. -/
theorem emit_while_locked_append (l1 l2 : List SnapshotAction) (b : Bool) :
    emit_while_locked (l1 ++ l2) b =
      (emit_while_locked l1 b || emit_while_locked l2 (lock_state_after l1 b)) := by
  induction l1 generalizing b with
  | nil => simp [emit_while_locked, lock_state_after]
  | cons a rest ih =>
      cases a <;> simp [emit_while_locked, lock_state_after, ih, Bool.or_assoc]

/-- `lock_state_after` distributes over trace concatenation. -/
theorem lock_state_after_append (l1 l2 : List SnapshotAction) (b : Bool) :
    lock_state_after (l1 ++ l2) b = lock_state_after l2 (lock_state_after l1 b) := by
  induction l1 generalizing b with
  | nil => rfl
  | cons a rest ih =>
      cases a <;> simp [lock_state_after, ih]

/-- The copy/resolve block touches no lock operation. -/
theorem lock_state_after_copy_resolve (items : List SnapshotEntry) (b : Bool) :
    lock_state_after
      (items.flatMap (fun it =>
        [SnapshotAction.copy_out it.address, SnapshotAction.resolve it.address])) b = b := by
  induction items generalizing b with
  | nil => rfl
  | cons it rest ih =>
      rw [List.flatMap_cons]
      simp only [List.cons_append, List.nil_append, lock_state_after]
      exact ih b

/-- The copy/resolve block contains a resolve action exactly when there
is at least one item. -/
theorem resolve_while_locked_copy_resolve (items : List SnapshotEntry) :
    resolve_while_locked
      (items.flatMap (fun it =>
        [SnapshotAction.copy_out it.address, SnapshotAction.resolve it.address])) true =
      !items.isEmpty := by
  induction items with
  | nil => rfl
  | cons it rest ih =>
      rw [List.flatMap_cons]
      simp only [List.cons_append, List.nil_append, resolve_while_locked]
      simp

/-- The emission block contains no resolve action. -/
theorem resolve_while_locked_emits (items : List SnapshotEntry) (b : Bool) :
    resolve_while_locked
      (items.flatMap (fun it =>
        SnapshotAction.emit_added it.address
          :: (if it.menu.isSome then [SnapshotAction.emit_menu it.address] else []))) b =
      false := by
  induction items generalizing b with
  | nil => rfl
  | cons it rest ih =>
      rw [List.flatMap_cons]
      cases h : it.menu.isSome
      · rw [if_neg Bool.false_ne_true]
        simp only [List.cons_append, List.nil_append, resolve_while_locked]
        exact ih b
      · rw [if_pos rfl]
        simp only [List.cons_append, List.singleton_append, List.nil_append,
          resolve_while_locked]
        exact ih b

/-- The copy/resolve block contains no emit action. -/
theorem emit_while_locked_copy_resolve (items : List SnapshotEntry) (b : Bool) :
    emit_while_locked
      (items.flatMap (fun it =>
        [SnapshotAction.copy_out it.address, SnapshotAction.resolve it.address])) b =
      false := by
  induction items generalizing b with
  | nil => rfl
  | cons it rest ih =>
      rw [List.flatMap_cons]
      simp only [List.cons_append, List.nil_append, emit_while_locked]
      exact ih b

/-- The emission block runs entirely with the lock released. -/
theorem emit_while_locked_emits_unlocked (items : List SnapshotEntry) :
    emit_while_locked
      (items.flatMap (fun it =>
        SnapshotAction.emit_added it.address
          :: (if it.menu.isSome then [SnapshotAction.emit_menu it.address] else [])))
      false = false := by
  induction items with
  | nil => rfl
  | cons it rest ih =>
      rw [List.flatMap_cons]
      cases h : it.menu.isSome
      · rw [if_neg Bool.false_ne_true]
        simp only [List.cons_append, List.nil_append, emit_while_locked,
          Bool.false_or]
        exact ih
      · rw [if_pos rfl]
        simp only [List.cons_append, List.singleton_append, List.nil_append,
          emit_while_locked, Bool.false_or]
        exact ih

/-- C9 (amended): in the snapshot phase, icon resolution executes
INSIDE the client's item-lock critical section whenever at least one
item is present; only the event emissions happen after the lock is
released. -/
theorem C9_snapshot_resolves_under_lock (items : List SnapshotEntry) :
    resolve_while_locked (snapshot_trace items) false = !items.isEmpty ∧
    emit_while_locked (snapshot_trace items) false = false := by
  constructor
  · rw [snapshot_trace]
    simp only [List.append_eq, List.singleton_append, List.cons_append,
      List.nil_append, resolve_while_locked_append, lock_state_after_append,
      lock_state_after, resolve_while_locked, lock_state_after_copy_resolve,
      resolve_while_locked_copy_resolve, resolve_while_locked_emits,
      Bool.or_false, Bool.false_or]
  · rw [snapshot_trace]
    simp only [List.append_eq, List.singleton_append, List.cons_append,
      List.nil_append, emit_while_locked_append, lock_state_after_append,
      lock_state_after, emit_while_locked, lock_state_after_copy_resolve,
      emit_while_locked_copy_resolve, emit_while_locked_emits_unlocked,
      Bool.or_false, Bool.false_or]

/-- C9 counterexample: with a single snapshot item, a resolve action
occurs between the lock acquisition and its release. -/
theorem C9_resolve_inside_lock_cex :
    resolve_while_locked
      (snapshot_trace [⟨"steam", some "Steam", false, none⟩]) false = true := by
  decide

/-- C1 (amended): `ItemRemoved(a)` removes `a` from the item map and
clears the open-menu marker if it pointed at `a`, but leaves every
popup entry — window bookkeeping, captured menu data and animation
state — untouched, and emits no follow-up message and no activation
request. -/
theorem C1_item_removed_keeps_popups (sb : StatusBar) (address : String) :
    (StatusBar.update sb (.SystemTray (.ItemRemoved address))).1.system_tray.items =
        map_remove sb.system_tray.items address ∧
    (StatusBar.update sb (.SystemTray (.ItemRemoved address))).1.system_tray.open_menu =
        (if sb.system_tray.open_menu = some address then none
         else sb.system_tray.open_menu) ∧
    (StatusBar.update sb (.SystemTray (.ItemRemoved address))).1.menu_data =
        sb.menu_data ∧
    (StatusBar.update sb (.SystemTray (.ItemRemoved address))).1.popup_animations =
        sb.popup_animations ∧
    (StatusBar.update sb (.SystemTray (.ItemRemoved address))).1.windows =
        sb.windows ∧
    (StatusBar.update sb (.SystemTray (.ItemRemoved address))).2.1 = [] ∧
    (StatusBar.update sb (.SystemTray (.ItemRemoved address))).2.2 = [] := by
  simp [StatusBar.update, SystemTray.update]

/-- C1 counterexample: after removing `"steam"`, the popup opened for
it still holds menu data referencing `"steam"` and its animation
entry, even though the item map no longer contains `"steam"`. -/
theorem C1_stale_popup_cex :
    (StatusBar.update removal_demo_state
        (.SystemTray (.ItemRemoved "steam"))).1.system_tray.items "steam" = none ∧
    ((StatusBar.update removal_demo_state
          (.SystemTray (.ItemRemoved "steam"))).1.menu_data.any
        (fun p => p.2.1 == "steam")) = true ∧
    ((StatusBar.update removal_demo_state
          (.SystemTray (.ItemRemoved "steam"))).1.popup_animations.any
        (fun p => p.1 == 7)) = true := by
  refine ⟨rfl, rfl, rfl⟩

/-- C2 (amended): the application layer intercepts a left-click only
when the item's menu LIST is non-empty (`main.rs` checks
`get_menu_items`/`is_empty`, not `has_menu`, so the menu-only flag does
not reroute clicks); in that case it emits one `OpenTrayMenu` intent
and no activation request. Otherwise the click reaches the store,
which — provided the activation channel is installed — emits exactly
one `Default` activation carrying the address and the `(0, 0)`
position hint. -/
theorem C2_left_click_routing (sb : StatusBar) (address : String) :
    (∀ items, SystemTray.get_menu_items sb.system_tray address = some items →
        items ≠ [] →
        StatusBar.update sb (.SystemTray (.ItemClicked address)) =
          (sb, [.OpenTrayMenu address items], [])) ∧
    ((SystemTray.get_menu_items sb.system_tray address).getD [] = [] →
        sb.system_tray.activate_tx = true →
        StatusBar.update sb (.SystemTray (.ItemClicked address)) =
          (sb, [], [ActivateRequest.Default address 0 0])) := by
  obtain ⟨tray, w, md, pa, ni⟩ := sb
  constructor
  · intro items hsome hne
    have hempty : items.isEmpty = false := by
      cases items with
      | nil => exact absurd rfl hne
      | cons a l => rfl
    simp [StatusBar.update, hsome, hempty]
  · intro hempty htx
    have htx2 : tray.activate_tx = true := htx
    have hempty2 : (SystemTray.get_menu_items tray address).getD [] = [] := hempty
    cases hsome : SystemTray.get_menu_items tray address with
    | none =>
        simp [StatusBar.update, SystemTray.update, hsome, htx2]
    | some items =>
        have hnil : items = [] := by
          rw [hsome] at hempty2
          simpa using hempty2
        subst hnil
        simp [StatusBar.update, SystemTray.update, hsome, htx2]

/-- C2 witness: a click on `"steam"` (non-empty menu) opens the menu;
a click on the menu-only `"discord"` (empty menu list) emits one
default activation. -/
theorem C2_left_click_routing_witness :
    StatusBar.update removal_demo_state (.SystemTray (.ItemClicked "steam")) =
      (removal_demo_state, [.OpenTrayMenu "steam" [demo_menu_item]], []) ∧
    StatusBar.update menu_only_state (.SystemTray (.ItemClicked "discord")) =
      (menu_only_state, [], [ActivateRequest.Default "discord" 0 0]) := by
  constructor
  · exact (C2_left_click_routing removal_demo_state "steam").1 [demo_menu_item]
      (by rfl) (by simp)
  · exact (C2_left_click_routing menu_only_state "discord").2 (by rfl) (by rfl)

/-- C2 counterexample: `"discord"` is menu-only with an empty menu
list, so `has_menu` is `true`, yet the click is NOT rerouted (no
follow-up message) and a default activation IS emitted; and in a state
whose activation channel is absent, a plain left-click emits no
activation at all rather than exactly one. -/
theorem C2_menu_only_click_activates_cex :
    SystemTray.has_menu menu_only_state.system_tray "discord" = true ∧
    (StatusBar.update menu_only_state
        (.SystemTray (.ItemClicked "discord"))).2.2 =
      [ActivateRequest.Default "discord" 0 0] ∧
    (StatusBar.update menu_only_state
        (.SystemTray (.ItemClicked "discord"))).2.1.isEmpty = true ∧
    (StatusBar.update no_channel_state
        (.SystemTray (.ItemClicked "missing"))).2.2 = [] := by
  refine ⟨rfl, rfl, rfl, rfl⟩

/-- The fold inside `min_by_key_first` returns the first-encountered
minimum of the accumulator followed by the list. -/
theorem foldl_min_first (key : IconPixmap → Nat) (xs : List IconPixmap) :
    ∀ x, IsFirstMin key (x :: xs)
      (xs.foldl (fun best y => if key y < key best then y else best) x) := by
  induction xs with
  | nil =>
      intro x
      exact ⟨[], [], rfl, by simp, by simp⟩
  | cons y ys ih =>
      intro x
      rw [List.foldl_cons]
      rcases ih (if key y < key x then y else x) with ⟨l1, l2, hsplit, hlt, hle⟩
      by_cases hxy : key y < key x
      · rw [if_pos hxy] at hsplit hlt hle ⊢
        cases l1 with
        | nil =>
            simp only [List.nil_append] at hsplit
            obtain ⟨hy, hl2⟩ := List.cons.inj hsplit
            refine ⟨[x], l2, ?_, ?_, hle⟩
            · rw [List.singleton_append, hsplit]
            · intro z hz
              rw [List.mem_singleton] at hz
              subst hz
              rw [← hy]
              exact hxy
        | cons a l1' =>
            simp only [List.cons_append] at hsplit
            obtain ⟨hay, hys⟩ := List.cons.inj hsplit
            have hry : key (ys.foldl (fun best z => if key z < key best then z else best) y)
                < key y := by
              have := hlt a (List.mem_cons_self a l1')
              rw [← hay] at this
              exact this
            refine ⟨x :: y :: l1', l2, ?_, ?_, hle⟩
            · rw [List.cons_append, List.cons_append, ← hys]
            · intro z hz
              rcases List.mem_cons.mp hz with rfl | hz2
              · exact lt_trans hry hxy
              rcases List.mem_cons.mp hz2 with rfl | hz3
              · exact hry
              · exact hlt z (List.mem_cons_of_mem a hz3)
      · rw [if_neg hxy] at hsplit hlt hle ⊢
        have hxley : key x ≤ key y := Nat.le_of_not_lt hxy
        cases l1 with
        | nil =>
            simp only [List.nil_append] at hsplit
            obtain ⟨hx, hl2⟩ := List.cons.inj hsplit
            refine ⟨[], y :: ys, ?_, by simp, ?_⟩
            · rw [List.nil_append, ← hx]
            · intro z hz
              rcases List.mem_cons.mp hz with rfl | hz2
              · rw [← hx]
                exact hxley
              · rw [← hx]
                rw [← hx] at hle
                rw [hl2] at hz2
                exact hle z hz2
        | cons a l1' =>
            simp only [List.cons_append] at hsplit
            obtain ⟨hax, hys⟩ := List.cons.inj hsplit
            have hrx : key (ys.foldl (fun best z => if key z < key best then z else best) x)
                < key x := by
              have := hlt a (List.mem_cons_self a l1')
              rw [← hax] at this
              exact this
            refine ⟨x :: y :: l1', l2, ?_, ?_, hle⟩
            · rw [List.cons_append, List.cons_append, ← hys]
            · intro z hz
              rcases List.mem_cons.mp hz with rfl | hz2
              · exact hrx
              rcases List.mem_cons.mp hz2 with rfl | hz3
              · exact lt_of_lt_of_le hrx hxley
              · exact hlt z (List.mem_cons_of_mem a hz3)

/-- `min_by_key_first` returns the first-encountered minimum. -/
theorem min_by_key_first_spec (key : IconPixmap → Nat) (l : List IconPixmap)
    (p : IconPixmap) (h : min_by_key_first key l = some p) :
    IsFirstMin key l p := by
  cases l with
  | nil => cases h
  | cons x xs =>
      have h2 : xs.foldl (fun best y => if key y < key best then y else best) x = p := by
        simpa [min_by_key_first] using h
      rw [← h2]
      exact foldl_min_first key xs x

/-- C4 (amended): among the pixmaps with positive width and height,
selection picks the first-encountered one whose width-distance to the
22 px target is minimal (ties favour input order); the emptiness of
the pixel buffer is checked only on that selected pixmap — when it is
empty the whole pixmap path yields `none` with no fallback to another
candidate — and otherwise the selected pixmap is converted. -/
theorem C4_pixmap_selection (pixmaps : List IconPixmap) :
    (∀ p, min_by_key_first pixmap_key (valid_pixmaps pixmaps) = some p →
        IsFirstMin pixmap_key (valid_pixmaps pixmaps) p ∧
        pixmap_to_handle pixmaps =
          (if p.pixels.isEmpty then none
           else some ⟨p.width, p.height,
              argb32_to_rgba p.pixels p.width.toNat p.height.toNat⟩)) ∧
    (min_by_key_first pixmap_key (valid_pixmaps pixmaps) = none →
        pixmap_to_handle pixmaps = none) := by
  constructor
  · intro p hp
    exact ⟨min_by_key_first_spec pixmap_key (valid_pixmaps pixmaps) p hp,
      by simp [pixmap_to_handle, hp]⟩
  · intro hnone
    simp [pixmap_to_handle, hnone]

/-- C4 witness: on widths 16, 20, 24, 48 with target 22, the width-20
pixmap is the first-encountered minimum (beating the equally-distant
width-24 pixmap by input order) and is the one converted. -/
theorem C4_pixmap_selection_witness :
    IsFirstMin pixmap_key (valid_pixmaps demo_pixmaps) ⟨20, 20, [1, 2, 3, 4]⟩ ∧
    pixmap_to_handle demo_pixmaps =
      some ⟨20, 20, argb32_to_rgba [1, 2, 3, 4] 20 20⟩ := by
  have h := (C4_pixmap_selection demo_pixmaps).1 ⟨20, 20, [1, 2, 3, 4]⟩ (by rfl)
  exact ⟨h.1, by simpa using h.2⟩

/-- C4 counterexample: when the width-closest pixmap (width 22) has an
empty pixel buffer, the code yields no image at all even though a
usable 1×1 pixmap is present later in the list (on its own it converts
fine) — there is no fallback to the next candidate. -/
theorem C4_no_fallback_cex :
    pixmap_to_handle [⟨22, 22, []⟩, ⟨1, 1, [0, 0, 0, 0]⟩] = none ∧
    pixmap_to_handle [⟨1, 1, [0, 0, 0, 0]⟩] = some ⟨1, 1, [0, 0, 0, 0]⟩ := by
  refine ⟨rfl, rfl⟩

/-- One `advance_first` step on a single popup at clamped linear
progress `min 1 (n·0.15)` yields `min 1 ((n+1)·0.15)`. -/
theorem advance_first_single_step (i : Nat) (ch : ℚ) (n : Nat) :
    advance_first [(i, ⟨min 1 ((n : ℚ) * (3 / 20)), ch⟩)] =
      [(i, ⟨min 1 (((n : ℚ) + 1) * (3 / 20)), ch⟩)] := by
  rcases lt_or_le ((n : ℚ) * (3 / 20)) 1 with h | h
  · have hmin : min 1 ((n : ℚ) * (3 / 20)) = (n : ℚ) * (3 / 20) :=
      min_eq_right h.le
    rw [hmin]
    have e1 : ((n : ℚ) + 1) * (3 / 20) = (n : ℚ) * (3 / 20) + 0.15 := by
      rw [show (0.15 : ℚ) = 3 / 20 by norm_num]
      ring
    have e2 : min 1 (((n : ℚ) + 1) * (3 / 20)) =
        min ((n : ℚ) * (3 / 20) + 0.15) 1 := by
      rw [e1, min_comm]
    rw [e2]
    simp [advance_first, h]
  · have hmin : min 1 ((n : ℚ) * (3 / 20)) = 1 := min_eq_left h
    have e1 : ((n : ℚ) + 1) * (3 / 20) = (n : ℚ) * (3 / 20) + 0.15 := by
      rw [show (0.15 : ℚ) = 3 / 20 by norm_num]
      ring
    have hmin2 : min 1 (((n : ℚ) + 1) * (3 / 20)) = 1 :=
      min_eq_left (by rw [e1]; linarith)
    rw [hmin, hmin2]
    simp [advance_first]

/-- Iterating `advance_first` on a single popup starting at progress
`0` gives the clamped linear progress `min 1 (n·0.15)` after `n`
steps. -/
theorem advance_first_iterate_single (i : Nat) (ch : ℚ) (n : Nat) :
    advance_first^[n] [(i, ⟨0, ch⟩)] =
      [(i, ⟨min 1 ((n : ℚ) * (3 / 20)), ch⟩)] := by
  induction n with
  | zero =>
      norm_num
  | succ n ih =>
      rw [Function.iterate_succ_apply', ih, advance_first_single_step]
      norm_num

/-- Iterated ticks act on the bar state exactly by iterating
`advance_first` on the popup animation map. -/
theorem tick_iterate_popup_animations (n : Nat) (sb : StatusBar) :
    (StatusBar.tick^[n] sb).popup_animations =
      advance_first^[n] sb.popup_animations := by
  induction n generalizing sb with
  | zero => rfl
  | succ n ih =>
      rw [Function.iterate_succ_apply, Function.iterate_succ_apply, ih]
      rfl

/-- `alist_get` on a one-entry map. -/
theorem alist_get_singleton (i k : Nat) (v : PopupAnimationState) :
    alist_get [(i, v)] k = if i = k then some v else none := by
  by_cases h : i = k
  · simp [alist_get, List.find?, h]
  · have hb : (i == k) = false := by simpa using h
    simp [alist_get, List.find?, h, hb]

/-- C3 (amended): each tick advances only the FIRST in-iteration-order
popup whose progress is below `1.0`, by `0.15` clamped to `1.0`; hence
for a state whose only popup starts at progress `0.0`, after `n` ticks
the stored progress is exactly `min 1 (n·0.15)`, it never exceeds
`1.0`, and the ease-out curve `1-(1-p)²` is applied to the stored
progress only at render time. -/
theorem C3_popup_animation_progress (sb : StatusBar) (i : Nat) (ch : ℚ) (n : Nat)
    (h : sb.popup_animations = [(i, ⟨0, ch⟩)]) :
    (StatusBar.tick^[n] sb).popup_animations =
        [(i, ⟨min 1 ((n : ℚ) * (3 / 20)), ch⟩)] ∧
    (∀ p ∈ (StatusBar.tick^[n] sb).popup_animations, p.2.progress ≤ 1) ∧
    StatusBar.view_tray_menu_visible_height (StatusBar.tick^[n] sb) i =
      max (ch * (1 - (1 - min 1 ((n : ℚ) * (3 / 20))) ^ 2)) 1 := by
  have h1 : (StatusBar.tick^[n] sb).popup_animations =
      [(i, ⟨min 1 ((n : ℚ) * (3 / 20)), ch⟩)] := by
    rw [tick_iterate_popup_animations, h, advance_first_iterate_single]
  refine ⟨h1, ?_, ?_⟩
  · intro p hp
    rw [h1] at hp
    rw [List.mem_singleton] at hp
    subst hp
    exact min_le_left 1 _
  · simp [StatusBar.view_tray_menu_visible_height, h1, alist_get_singleton]

/-- C3 witness: a lone popup at progress `0` reaches stored progress
`9/20` after three ticks, and renders at the eased height computed
from that stored value. -/
theorem C3_popup_animation_progress_witness :
    (StatusBar.tick^[3] single_popup_state).popup_animations =
        [(9, ⟨9 / 20, 28⟩)] ∧
    StatusBar.view_tray_menu_visible_height (StatusBar.tick^[3] single_popup_state) 9 =
      max (28 * (1 - (1 - (9 / 20 : ℚ)) ^ 2)) 1 := by
  have h := C3_popup_animation_progress single_popup_state 9 28 3 (by rfl)
  have hmin : min 1 ((3 : ℚ) * (3 / 20)) = 9 / 20 := by norm_num
  constructor
  · have := h.1
    rw [show (((3 : Nat) : ℚ)) = (3 : ℚ) by norm_num, hmin] at this
    exact this
  · have := h.2.2
    rw [show (((3 : Nat) : ℚ)) = (3 : ℚ) by norm_num, hmin] at this
    exact this

/-- C3 counterexample: with two popups both at progress `0` (below
`1.0`), one tick advances only the first — the second popup's stored
progress stays `0` instead of the claimed `min 1 (0.15)`. -/
theorem C3_second_popup_not_advanced_cex :
    alist_get two_popup_state.popup_animations 2 = some ⟨0, 44⟩ ∧
    (0 : ℚ) < 1 ∧
    alist_get
        (StatusBar.update two_popup_state .PopupAnimationTick).1.popup_animations 2 =
      some ⟨0, 44⟩ ∧
    (0 : ℚ) ≠ min 1 (3 / 20) := by
  refine ⟨rfl, by norm_num, by decide, by norm_num⟩
